import Mathlib

/-!
Verification of the qbjc QBasic compiler core against its specification.

The definitions below are a shallow embedding of the TypeScript sources:
the semantic analyzer (coercion, symbol resolution), the lexer, the code
generator (FOR/NEXT lowering, unary-operator emission) and the runtime
(PRINT, INPUT, built-in function lookup).  Helper modules `lib/types` and
`lib/symbol-table` are not part of the provided sources; where needed they
are modelled from the specification text, as marked in doc comments.
-/

namespace Qbjc

/-! ## Type system (`lib/types`)

Modelled from the spec: a tagged value, one of Integer, Long, Single,
Double, String, or Array of an elementary type spec with dimension specs.
Equality is structural (`_.isEqual` in the source). -/

inductive DataTypeSpec where
  | integer
  | long
  | single
  | double
  | string
  | array (elementTypeSpec : DataTypeSpec) (dimensionSpecs : List (Int × Int))
deriving DecidableEq, Repr

namespace DataTypeSpec

/-- Modelled from the spec: isNumeric = any of the four numeric tags. -/
def isNumericB : DataTypeSpec → Bool
  | .integer | .long | .single | .double => true
  | _ => false

/-- Modelled from the spec: isString = String tag. -/
def isStringB : DataTypeSpec → Bool
  | .string => true
  | _ => false

/-- Modelled from the spec: isElementary = any non-Array. -/
def isElementaryB : DataTypeSpec → Bool
  | .array _ _ => false
  | _ => true

def isArrayB : DataTypeSpec → Bool
  | .array _ _ => true
  | _ => false

/-- Modelled from the spec: areMatchingElementary(a,b) = both numeric or
both string. -/
def areMatchingElementaryTypes (a b : DataTypeSpec) : Bool :=
  (a.isNumericB && b.isNumericB) || (a.isStringB && b.isStringB)

end DataTypeSpec

open DataTypeSpec

/-! ## Numeric coercion (`SemanticAnalyzer.coerceNumericTypes`) -/

/-- The literal RULES table from `coerceNumericTypes`, in source order:
each entry is (first operand, second operand, result). -/
def coercionRules : List (DataTypeSpec × DataTypeSpec × DataTypeSpec) := [
  (.integer, .integer, .integer),
  (.integer, .long, .long),
  (.integer, .single, .single),
  (.integer, .double, .double),
  (.long, .integer, .long),
  (.long, .long, .long),
  (.long, .single, .single),
  (.long, .double, .double),
  (.single, .integer, .single),
  (.single, .long, .single),
  (.single, .single, .single),
  (.single, .double, .double),
  (.double, .integer, .double),
  (.double, .long, .double),
  (.double, .single, .double),
  (.double, .double, .double)]

/-- One left-fold step of `coerceNumericTypes`: find the first rule whose
operands equal the accumulated result and the next type (`_.isEqual` is
structural equality). -/
def coerceStep (acc next : DataTypeSpec) : Except String DataTypeSpec :=
  match coercionRules.find? (fun r => r.1 = acc && r.2.1 = next) with
  | some r => .ok r.2.2
  | none => .error "Unknown numeric type combination"

/-- `SemanticAnalyzer.coerceNumericTypes`: errors on an empty argument
list or any non-numeric argument, otherwise left-folds the rule table
over the list starting from the first element. -/
def coerceNumericTypes (t : List DataTypeSpec) : Except String DataTypeSpec :=
  match t with
  | [] => .error "Missing arguments"
  | t0 :: rest =>
    if (t0 :: rest).all isNumericB then
      rest.foldlM coerceStep t0
    else
      .error "Expected numeric types"

/-- Pairwise coercion as invoked by the analyzer for binary operations. -/
def coerce2 (a b : DataTypeSpec) : Except String DataTypeSpec :=
  coerceNumericTypes [a, b]

/-- Spec-side definition (from the claim's words): the rank of a numeric
type in the ordering Integer < Long < Single < Double. -/
def numericRank : DataTypeSpec → Nat
  | .integer => 0
  | .long => 1
  | .single => 2
  | .double => 3
  | _ => 0

/-- Spec-side definition (from the claim's words): the wider of two
numeric types by the ordering Integer < Long < Single < Double. -/
def widerNumericType (a b : DataTypeSpec) : DataTypeSpec :=
  if numericRank b ≤ numericRank a then a else b

/-! ## Runtime PRINT (`Runtime.print` in `runtime/runtime.ts`)

A `Value` print arg holds a JavaScript string or number; number values
are modelled on the integers, where JavaScript stringification agrees
with `Int`'s decimal representation. -/

inductive PrintVal where
  | str (s : String)
  | num (n : Int)
deriving DecidableEq, Repr

/-- Tagged print argument (`PrintArgType` SEMICOLON / COMMA / VALUE). -/
inductive PrintArg where
  | semicolon
  | comma
  | value (v : PrintVal)
deriving DecidableEq, Repr

def PrintArg.isValue : PrintArg → Bool
  | .value _ => true
  | _ => false

namespace Runtime

def PRINT_ZONE_LENGTH : Nat := 14

/-- One iteration of the `for (const arg of args)` loop in
`Runtime.print`, transforming the accumulated line. -/
def printStep (line : String) : PrintArg → String
  | .semicolon => line
  | .comma =>
    let numPaddingChars := PRINT_ZONE_LENGTH - line.length % PRINT_ZONE_LENGTH
    line ++ String.mk (List.replicate numPaddingChars ' ')
  | .value (.str s) => line ++ s
  | .value (.num n) => line ++ (if n ≥ 0 then " " else "") ++ toString n ++ " "

/-- `Runtime.print`: fold the args into a line, then append a newline
when the arg list is empty or its last element is a VALUE arg. -/
def print (args : List PrintArg) : String :=
  let line := args.foldl printStep ""
  if args.isEmpty || (args.getLast?.map PrintArg.isValue).getD false then
    line ++ "\n"
  else
    line

/-- Spec-side definition (from the claim's words): rendering of a single
print argument given the current line.  A number gets a leading space
when non-negative and a trailing space; a string is emitted as-is; a
comma pads with spaces up to the next 14-column print zone boundary; a
semicolon contributes nothing. -/
def specPrintStep (line : String) : PrintArg → String
  | .semicolon => line
  | .comma =>
    let nextZone := (line.length / 14 + 1) * 14
    line ++ String.mk (List.replicate (nextZone - line.length) ' ')
  | .value (.str s) => line ++ s
  | .value (.num n) => line ++ (if 0 ≤ n then " " else "") ++ toString n ++ " "

/-- Spec-side definition (from the claim's words): render all args and
append a newline exactly when the argument list is empty or its last
argument is a Value. -/
def specPrint (args : List PrintArg) : String :=
  let line := args.foldl specPrintStep ""
  if args.isEmpty || (args.getLast?.map PrintArg.isValue).getD false then
    line ++ "\n"
  else
    line

end Runtime

/-! ## Built-in function registry (`runtime/runtime.ts`)

The JavaScript `run` implementations are platform I/O and are not part
of the lookup logic under study; a `BuiltinFn` is modelled by its name
and type signature. -/

structure BuiltinFn where
  name : String
  paramTypeSpecs : List DataTypeSpec
  returnTypeSpec : DataTypeSpec
deriving DecidableEq, Repr

/-- The `BUILTIN_FNS` array, in source order. -/
def BUILTIN_FNS : List BuiltinFn := [
  ⟨"chr$", [.long], .string⟩,
  ⟨"instr", [.string, .string], .integer⟩,
  ⟨"instr", [.long, .string, .string], .integer⟩,
  ⟨"lbound", [.array .double []], .long⟩,
  ⟨"lbound", [.array .double [], .long], .long⟩,
  ⟨"lcase$", [.string], .string⟩,
  ⟨"left$", [.string, .long], .string⟩,
  ⟨"len", [.string], .long⟩,
  ⟨"mid$", [.string, .long, .long], .string⟩,
  ⟨"right$", [.string, .long], .string⟩,
  ⟨"str$", [.double], .string⟩,
  ⟨"val", [.string], .double⟩,
  ⟨"ubound", [.array .double []], .long⟩,
  ⟨"ubound", [.array .double [], .long], .long⟩,
  ⟨"ucase$", [.string], .string⟩]

/-- JavaScript `toLowerCase`, modelled characterwise (the names involved
are ASCII, where this agrees with JavaScript). -/
def lowerStr (s : String) : String := ⟨s.data.map Char.toLower⟩

/-- Modelled from the spec: `lookupSymbols` (`lib/symbol-table`, not in
the provided sources) returns all entries whose name matches
case-insensitively, in insertion order. -/
def lookupSymbols (fns : List BuiltinFn) (name : String) : List BuiltinFn :=
  fns.filter (fun fn => lowerStr fn.name == lowerStr name)

/-- The overload predicate from `lookupBuiltinFn`: the parameter count
matches the argument count and each parameter matches the corresponding
argument by `areMatchingElementaryTypes`, or both are arrays. -/
def overloadMatches (argTypeSpecs : List DataTypeSpec) (fn : BuiltinFn) : Bool :=
  fn.paramTypeSpecs.length == argTypeSpecs.length &&
  (fn.paramTypeSpecs.zip argTypeSpecs).all (fun p =>
    areMatchingElementaryTypes p.1 p.2 || (p.1.isArrayB && p.2.isArrayB))

/-- `lookupBuiltinFn`: find the first overload matching name, arity and
types; otherwise, when `shouldReturnIfArgTypeMismatch` is set and some
built-in matches the name, fall back to the first name match. -/
def lookupBuiltinFn (name : String) (argTypeSpecs : List DataTypeSpec)
    (shouldReturnIfArgTypeMismatch : Bool) : Option BuiltinFn :=
  match (lookupSymbols BUILTIN_FNS name).find? (overloadMatches argTypeSpecs) with
  | some fn => some fn
  | none =>
    if shouldReturnIfArgTypeMismatch
        && (lookupSymbols BUILTIN_FNS name).length > 0 then
      (lookupSymbols BUILTIN_FNS name).head?
    else
      none

/-! ## Symbol table and `SemanticAnalyzer.visitVarRefExpr` -/

/-- Symbol kind (`VarType.VAR / ARG / CONST`). -/
inductive VarType where
  | var
  | arg
  | const
deriving DecidableEq, Repr

/-- Variable scope (`VarScope.LOCAL / GLOBAL`). -/
inductive VarScope where
  | localScope
  | globalScope
deriving DecidableEq, Repr

structure VarSymbol where
  name : String
  type : VarType
  typeSpec : DataTypeSpec
deriving DecidableEq, Repr

inductive ProcType where
  | fn
  | sub
deriving DecidableEq, Repr

/-- A procedure after `preprocessProc` (params and locals synthesised). -/
structure Proc where
  name : String
  type : ProcType
  paramSymbols : List VarSymbol
  localSymbols : List VarSymbol
deriving DecidableEq, Repr

/-- Modelled from the spec: `lookupSymbol` (`lib/symbol-table`, not in
the provided sources) returns the first entry whose name matches
case-insensitively. -/
def lookupSymbol (syms : List VarSymbol) (name : String) : Option VarSymbol :=
  syms.find? (fun s => lowerStr s.name == lowerStr name)

/-- The same helper applied to `module.procs` in `visitVarRefExpr`. -/
def lookupProc (procs : List Proc) (name : String) : Option Proc :=
  procs.find? (fun p => lowerStr p.name == lowerStr name)

/-- The analyzer state relevant to symbol resolution: the proc being
visited (or none at module level) and the module's symbol tables. -/
structure AnalyzerState where
  currentProc : Option Proc
  moduleLocalSymbols : List VarSymbol
  moduleGlobalSymbols : List VarSymbol
  procs : List Proc
deriving DecidableEq, Repr

/-- `SemanticAnalyzer.getLocalSymbols`: the current proc's locals when
inside a proc, else the module's locals. -/
def getLocalSymbols (st : AnalyzerState) : List VarSymbol :=
  match st.currentProc with
  | some p => p.localSymbols
  | none => st.moduleLocalSymbols

/-- `SemanticAnalyzer.lookupSymbol` (the private method): params of the
current proc (when inside one), then `getLocalSymbols`, then the module
globals. -/
def analyzerLookupSymbol (st : AnalyzerState) (name : String) :
    Option (VarSymbol × VarScope) :=
  match (match st.currentProc with
         | some p => lookupSymbol p.paramSymbols name
         | none => none) with
  | some s => some (s, .localScope)
  | none =>
    match lookupSymbol (getLocalSymbols st) name with
    | some s => some (s, .localScope)
    | none =>
      match lookupSymbol st.moduleGlobalSymbols name with
      | some s => some (s, .globalScope)
      | none => none

/-- `TYPE_SUFFIX_MAP`. -/
def typeSuffixMap : Char → Option DataTypeSpec
  | '%' => some .integer
  | '&' => some .long
  | '!' => some .single
  | '#' => some .double
  | '$' => some .string
  | _ => none

/-- `SemanticAnalyzer.getTypeSpecFromSuffix`: map the last character of
the name through `TYPE_SUFFIX_MAP`, defaulting to Single. -/
def getTypeSpecFromSuffix (name : String) : DataTypeSpec :=
  match name.data.getLast? with
  | some c => (typeSuffixMap c).getD .single
  | none => .single

/-- Outcome of `visitVarRefExpr` on a not-yet-annotated VarRef node.
`resolved` and `declaredLocal` annotate the node with the symbol's type
spec, var type and scope; a newly declared local is appended to the
current local symbol table with scope LOCAL. -/
inductive VarRefResult where
  | resolved (sym : VarSymbol) (scope : VarScope)
  | rewrittenToFnCall (name : String)
  | notAFunctionError (procName : String)
  | declaredLocal (sym : VarSymbol)
deriving DecidableEq, Repr

/-- `SemanticAnalyzer.visitVarRefExpr`: resolve via the analyzer lookup;
on a miss, rewrite to a nullary FnCall when the name names an FN proc
(error when it names a non-FN proc), else declare a fresh local typed by
the name's suffix. -/
def visitVarRefExpr (st : AnalyzerState) (name : String) : VarRefResult :=
  match analyzerLookupSymbol st name with
  | some (s, scope) => .resolved s scope
  | none =>
    match lookupProc st.procs name with
    | some p =>
      match p.type with
      | .fn => .rewrittenToFnCall name
      | .sub => .notAFunctionError p.name
    | none => .declaredLocal ⟨name, .var, getTypeSpecFromSuffix name⟩

/-- First hit across a sequence of (symbol table, scope) pairs. -/
def lookupChain : List (List VarSymbol × VarScope) → String →
    Option (VarSymbol × VarScope)
  | [], _ => none
  | (syms, sc) :: rest, name =>
    match lookupSymbol syms name with
    | some s => some (s, sc)
    | none => lookupChain rest name

/-- Spec-side definition (from the claim's words): lookup consults, in
order, the current proc's params, the current proc's locals, the
module's locals, then the module's globals. -/
def claimLookupSymbol (st : AnalyzerState) (name : String) :
    Option (VarSymbol × VarScope) :=
  lookupChain
    ((match st.currentProc with
      | some p => [(p.paramSymbols, VarScope.localScope),
                   (p.localSymbols, VarScope.localScope)]
      | none => []) ++
     [(st.moduleLocalSymbols, VarScope.localScope),
      (st.moduleGlobalSymbols, VarScope.globalScope)])
    name

/-- Spec-side definition (from the claim's words): resolution with the
claimed four-step lookup order and the claimed miss behaviour. -/
def claimVisitVarRef (st : AnalyzerState) (name : String) : VarRefResult :=
  match claimLookupSymbol st name with
  | some (s, scope) => .resolved s scope
  | none =>
    match lookupProc st.procs name with
    | some p =>
      match p.type with
      | .fn => .rewrittenToFnCall name
      | .sub => .notAFunctionError p.name
    | none => .declaredLocal ⟨name, .var, getTypeSpecFromSuffix name⟩

/-- Spec-side definition (amended): inside a proc the visible tables are
the proc's params, the proc's locals and the module globals; module
locals are visible only at module level. -/
def amendedLookupSymbol (st : AnalyzerState) (name : String) :
    Option (VarSymbol × VarScope) :=
  lookupChain
    (match st.currentProc with
     | some p => [(p.paramSymbols, VarScope.localScope),
                  (p.localSymbols, VarScope.localScope),
                  (st.moduleGlobalSymbols, VarScope.globalScope)]
     | none => [(st.moduleLocalSymbols, VarScope.localScope),
                (st.moduleGlobalSymbols, VarScope.globalScope)])
    name

/-- Spec-side definition (amended): resolution with the amended lookup
order and the claimed miss behaviour. -/
def amendedVisitVarRef (st : AnalyzerState) (name : String) : VarRefResult :=
  match amendedLookupSymbol st name with
  | some (s, scope) => .resolved s scope
  | none =>
    match lookupProc st.procs name with
    | some p =>
      match p.type with
      | .fn => .rewrittenToFnCall name
      | .sub => .notAFunctionError p.name
    | none => .declaredLocal ⟨name, .var, getTypeSpecFromSuffix name⟩

/-- A function proc `f` as produced by `preprocessProc`: no params, and
an implicit local for the return value named after the function. -/
def procF : Proc := ⟨"f", .fn, [], [⟨"f", .var, .single⟩]⟩

/-- Analyzer state while visiting the body of `procF`, after a
module-level statement declared the module local `x`. -/
def stInsideF : AnalyzerState :=
  ⟨some procF, [⟨"x", .var, .single⟩], [], [procF]⟩

/-! ## Code generator: FOR/NEXT lowering (`code-generator.ts`)

The generator's `openForStmtStates` stack is modelled with the INNERMOST
open FOR at the head (the source uses a JavaScript array pushed/popped
at its end, so head-of-list corresponds to its last element, and
`openForStmtStates[length - 1 - i]` is position `i` here).  Emitted
code is abstracted to tagged chunks carrying the strings the source
interpolates. -/

namespace Codegen

/-- `ForStmtState`: bookkeeping for one open FOR.  `counterText` is the
generated text of the counter expression (the source compares NEXT
counters by `accept(expr).toString()`). -/
structure ForFrame where
  counterText : String
  startLabel : String
  endLabel : String
  stepVar : String
  endVar : String
deriving DecidableEq, Repr

/-- One emitted statement or label, abstracted. -/
inductive GenChunk where
  | forInit (f : ForFrame)
  | incrGoto (counterText stepVar startLabel : String)
  | labelStmt (label : String)
  | deleteTemps (stepVar endVar : String)
  | otherCode
deriving DecidableEq, Repr

/-- The three emissions of one iteration of the closing loop in
`visitNextStmt`: counter increment plus goto loopStart, the loopEnd
label, and the release of the step and end temps. -/
def closeChunks (f : ForFrame) : List GenChunk :=
  [.incrGoto f.counterText f.stepVar f.startLabel,
   .labelStmt f.endLabel,
   .deleteTemps f.stepVar f.endVar]

/-- The pop-and-emit loop of `visitNextStmt` (`openForStmtStates.pop()`
per iteration). -/
def popFrames : Nat → List ForFrame → (List GenChunk × List ForFrame)
  | 0, stack => ([], stack)
  | _ + 1, [] => ([], [])
  | k + 1, f :: stack =>
    let rest := popFrames k stack
    (closeChunks f ++ rest.1, rest.2)

/-- `node.counterExprs.length || 1`: a bare NEXT closes one frame. -/
def numForStmtStatesToClose (counters : List String) : Nat :=
  if counters.length = 0 then 1 else counters.length

/-- `CodeGenerator.visitNextStmt`: `counterExprs.length || 1` frames are
closed; closing more frames than are open, or naming a counter whose
text differs from the corresponding FOR frame's counter text, is a
CodegenError. -/
def visitNextStmt (counters : List String) (stack : List ForFrame) :
    Except String (List GenChunk × List ForFrame) :=
  if stack.length < numForStmtStatesToClose counters then
    .error "NEXT statement without corresponding FOR statement"
  else if (counters.zip stack).all (fun p => p.1 == p.2.counterText) then
    .ok (popFrames (numForStmtStatesToClose counters) stack)
  else
    .error "Counter does not match corresponding FOR statement"

/-- Statement shapes relevant to the FOR stack.  FOR bodies are flat in
the source statement list (`visitForStmt` does not recurse), so a
statement list suffices. -/
inductive GStmt where
  | forG (f : ForFrame)
  | nextG (counters : List String)
  | otherG
deriving DecidableEq, Repr

/-- Code generation of one statement: `visitForStmt` emits the
initialisation and guard and pushes a frame; `visitNextStmt` closes
frames; other statements leave the stack unchanged. -/
def genStmt1 (s : GStmt) (stack : List ForFrame) :
    Except String (List GenChunk × List ForFrame) :=
  match s with
  | .forG f => .ok ([.forInit f], f :: stack)
  | .nextG counters => visitNextStmt counters stack
  | .otherG => .ok ([.otherCode], stack)

/-- `acceptAll` over a statement list, threading the FOR stack. -/
def genStmtsAux : List GStmt → List ForFrame →
    Except String (List GenChunk × List ForFrame)
  | [], stack => .ok ([], stack)
  | s :: rest, stack => do
    let r1 ← genStmt1 s stack
    let r2 ← genStmtsAux rest r1.2
    .ok (r1.1 ++ r2.1, r2.2)

/-- `CodeGenerator.visitStmts`: generate the statements, then raise a
CodegenError when the statement list is exhausted with more open FOR
frames than it started with. -/
def visitStmts (stmts : List GStmt) (stack : List ForFrame) :
    Except String (List GenChunk × List ForFrame) := do
  let r ← genStmtsAux stmts stack
  if stack.length < r.2.length then
    .error "FOR statement without corresponding NEXT statement"
  else
    .ok r

end Codegen

/-! ## Code generator: unary operators (`visitUnaryOpExpr`) -/

/-- `UnaryOp` (ast): NEG, NOT, PARENS. -/
inductive UnaryOp where
  | neg
  | not
  | parens
deriving DecidableEq, Repr

/-- The `OP_MAP` object literal in `CodeGenerator.visitUnaryOpExpr`: it
has entries for NEG and NOT only, so indexing it with PARENS yields
undefined, modelled as `none`. -/
def unaryOpMap : UnaryOp → Option String
  | .neg => some "-"
  | .not => some "!"
  | .parens => none

/-- `CodeGenerator.visitUnaryOpExpr` builds the chunk list
`['(', OP_MAP[node.op], <code of rightExpr>, ')']`. -/
def visitUnaryOpExpr (op : UnaryOp) (rightCode : String) :
    List (Option String) :=
  [some "(", unaryOpMap op, some rightCode, some ")"]

/-- `SourceNode` (source-map library) accepts string and node chunks and
raises a TypeError on any other chunk, undefined included; assembling a
chunk list therefore produces output only when every chunk is defined. -/
def assembleChunks (chunks : List (Option String)) : Option String :=
  chunks.foldr
    (fun c acc =>
      match c, acc with
      | some s, some r => some (s ++ r)
      | _, _ => none)
    (some "")

/-! ## Lexer (`lexer.ts`, the moo-based token stream)

The moo library assigns each token the result of the rule's dynamic
`type` function when that result is truthy, falling back to the rule
name (an empty string falls back); this fallback is modelled explicitly.
Unrecognised input (a LexError in the source) and end of input are both
modelled as `none`. -/

/-- JavaScript regex `\s`: ASCII whitespace plus the Unicode space
characters. -/
def isJsSpace (c : Char) : Bool :=
  c == ' ' || c == '\t' || c == '\n' || c == '\r' ||
  c.toNat == 11 || c.toNat == 12 || c.toNat == 0xa0 || c.toNat == 0x1680 ||
  (0x2000 ≤ c.toNat && c.toNat ≤ 0x200a) || c.toNat == 0x2028 ||
  c.toNat == 0x2029 || c.toNat == 0x202f || c.toNat == 0x205f ||
  c.toNat == 0x3000 || c.toNat == 0xfeff

/-- First character of the IDENTIFIER pattern `[a-zA-Z_]`. -/
def isIdentStart (c : Char) : Bool := c.isAlpha || c == '_'

/-- Continuation characters of the IDENTIFIER pattern `[a-zA-Z0-9_]`. -/
def isIdentCont (c : Char) : Bool := isIdentStart c || c.isDigit

/-- Optional identifier suffix `(?:\$|%|#|&|!)`. -/
def isSigil (c : Char) : Bool :=
  c == '$' || c == '%' || c == '#' || c == '&' || c == '!'

/-- The `Keywords` enum: lowercased identifier text mapped to the
keyword token type (via `caseInsensitiveKeywords`). -/
def keywordType (s : String) : Option String :=
  if s == "and" then some "AND"
  else if s == "else" then some "ELSE"
  else if s == "elseif" then some "ELSEIF"
  else if s == "end" then some "END"
  else if s == "goto" then some "GOTO"
  else if s == "if" then some "IF"
  else if s == "let" then some "LET"
  else if s == "mod" then some "MOD"
  else if s == "or" then some "OR"
  else if s == "print" then some "PRINT"
  else if s == "then" then some "THEN"
  else none

/-- A raw moo token: its (post-fallback) type and matched text. -/
structure RawToken where
  ttype : String
  text : List Char
deriving DecidableEq, Repr

/-- The type of an identifier token: the keyword type when the
lowercased text is a keyword, else IDENTIFIER (moo's fallback). -/
def identTokenType (run : List Char) : String :=
  (keywordType (lowerStr run.asString)).getD "IDENTIFIER"

/-- The dynamic `type` of the WHITESPACE rule (NEWLINE when the matched
text contains a newline, empty otherwise) followed by moo's fallback to
the rule name on a falsy result: `type(text) || defaultType`. -/
def wsTokenType (run : List Char) : String :=
  if (if run.contains '\n' then "NEWLINE" else "") == "" then "WHITESPACE"
  else if run.contains '\n' then "NEWLINE" else ""

/-- The WHITESPACE rule: greedy `\s+` with the dynamic NEWLINE type. -/
def wsToken (c : Char) (cs : List Char) : RawToken × List Char :=
  (⟨wsTokenType (c :: cs.takeWhile isJsSpace), c :: cs.takeWhile isJsSpace⟩,
   cs.dropWhile isJsSpace)

/-- The COMMENT rule: `'` up to end of line. -/
def commentToken (c : Char) (cs : List Char) : RawToken × List Char :=
  (⟨"COMMENT", c :: cs.takeWhile (fun d => !(d == '\n'))⟩,
   cs.dropWhile (fun d => !(d == '\n')))

/-- The IDENTIFIER rule `[a-zA-Z_][a-zA-Z0-9_]*(?:\$|%|#|&|!)?` with
keyword folding. -/
def identToken (c : Char) (cs : List Char) : RawToken × List Char :=
  match cs.dropWhile isIdentCont with
  | d :: ds =>
    if isSigil d then
      (⟨identTokenType (c :: (cs.takeWhile isIdentCont ++ [d])),
        c :: (cs.takeWhile isIdentCont ++ [d])⟩, ds)
    else
      (⟨identTokenType (c :: cs.takeWhile isIdentCont),
        c :: cs.takeWhile isIdentCont⟩, d :: ds)
  | [] =>
    (⟨identTokenType (c :: cs.takeWhile isIdentCont),
      c :: cs.takeWhile isIdentCont⟩, [])

/-- The STRING_LITERAL rule `"[^"]*"`; with no closing quote the rule
fails and no other rule matches `"`, a LexError. -/
def stringToken (c : Char) (cs : List Char) : Option (RawToken × List Char) :=
  match cs.dropWhile (fun d => !(d == '"')) with
  | _ :: rest2 =>
    some (⟨"STRING_LITERAL",
           c :: (cs.takeWhile (fun d => !(d == '"')) ++ ['"'])⟩, rest2)
  | [] => none

/-- The NUMERIC_LITERAL rule starting at a digit (or at `-` with `c`
being the sign): greedy digits, then a fractional part only when at
least one digit follows the dot (`\d*\.\d+|\d+`). -/
def numericToken (c : Char) (cs : List Char) : RawToken × List Char :=
  match cs.dropWhile Char.isDigit with
  | '.' :: ds2 =>
    if (ds2.takeWhile Char.isDigit).isEmpty then
      (⟨"NUMERIC_LITERAL", c :: cs.takeWhile Char.isDigit⟩,
       cs.dropWhile Char.isDigit)
    else
      (⟨"NUMERIC_LITERAL",
        c :: (cs.takeWhile Char.isDigit ++ '.' :: ds2.takeWhile Char.isDigit)⟩,
       ds2.dropWhile Char.isDigit)
  | _ =>
    (⟨"NUMERIC_LITERAL", c :: cs.takeWhile Char.isDigit⟩,
     cs.dropWhile Char.isDigit)

/-- Lexing at `-`: NUMERIC_LITERAL is tried before SUB (so negative
literals work); the literal requires digits (or dot-digits) after the
sign, else the SUB rule matches. -/
def negToken (c : Char) (cs : List Char) : RawToken × List Char :=
  match cs with
  | '.' :: ds2 =>
    if (ds2.takeWhile Char.isDigit).isEmpty then
      (⟨"SUB", [c]⟩, cs)
    else
      (⟨"NUMERIC_LITERAL", c :: '.' :: ds2.takeWhile Char.isDigit⟩,
       ds2.dropWhile Char.isDigit)
  | d :: _ =>
    if d.isDigit then numericToken c cs
    else (⟨"SUB", [c]⟩, cs)
  | [] => (⟨"SUB", [c]⟩, cs)

/-- Lexing at `.`: only NUMERIC_LITERAL `\d*\.\d+` can match. -/
def dotToken (c : Char) (cs : List Char) : Option (RawToken × List Char) :=
  if (cs.takeWhile Char.isDigit).isEmpty then none
  else
    some (⟨"NUMERIC_LITERAL", c :: cs.takeWhile Char.isDigit⟩,
          cs.dropWhile Char.isDigit)

/-- Lexing at `<`: NE and LTE are listed before LT. -/
def ltToken (c : Char) (cs : List Char) : RawToken × List Char :=
  match cs with
  | '>' :: r => (⟨"NE", ['<', '>']⟩, r)
  | '=' :: r => (⟨"LTE", ['<', '=']⟩, r)
  | _ => (⟨"LT", [c]⟩, cs)

/-- Lexing at `>`: GTE is listed before GT. -/
def gtToken (c : Char) (cs : List Char) : RawToken × List Char :=
  match cs with
  | '=' :: r => (⟨"GTE", ['>', '=']⟩, r)
  | _ => (⟨"GT", [c]⟩, cs)

/-- One raw token at input head `c :: cs`, following the source's rule
order: WHITESPACE, COMMENT, IDENTIFIER, STRING_LITERAL, NUMERIC_LITERAL
(before SUB), then the punctuation, operator and comparison literals. -/
def rawNext1 (c : Char) (cs : List Char) : Option (RawToken × List Char) :=
  if isJsSpace c then some (wsToken c cs)
  else if c == '\'' then some (commentToken c cs)
  else if isIdentStart c then some (identToken c cs)
  else if c == '"' then stringToken c cs
  else if c.isDigit then some (numericToken c cs)
  else if c == '-' then some (negToken c cs)
  else if c == '.' then dotToken c cs
  else if c == ':' then some (⟨"COLON", [c]⟩, cs)
  else if c == ';' then some (⟨"SEMICOLON", [c]⟩, cs)
  else if c == ',' then some (⟨"COMMA", [c]⟩, cs)
  else if c == '(' then some (⟨"LPAREN", [c]⟩, cs)
  else if c == ')' then some (⟨"RPAREN", [c]⟩, cs)
  else if c == '+' then some (⟨"ADD", [c]⟩, cs)
  else if c == '*' then some (⟨"MUL", [c]⟩, cs)
  else if c == '^' then some (⟨"EXP", [c]⟩, cs)
  else if c == '/' then some (⟨"DIV", [c]⟩, cs)
  else if c == '\\' then some (⟨"INTDIV", [c]⟩, cs)
  else if c == '=' then some (⟨"EQ", [c]⟩, cs)
  else if c == '<' then some (ltToken c cs)
  else if c == '>' then some (gtToken c cs)
  else none

/-- One raw token from the head of the input. -/
def rawNext : List Char → Option (RawToken × List Char)
  | [] => none
  | c :: cs => rawNext1 c cs

/-- The rest after a whitespace token is a suffix of the tail. -/
def wsToken_suffix (c : Char) (cs : List Char) : (wsToken c cs).2 <:+ cs :=
  List.dropWhile_suffix _

def commentToken_suffix (c : Char) (cs : List Char) :
    (commentToken c cs).2 <:+ cs :=
  List.dropWhile_suffix _

def identToken_suffix (c : Char) (cs : List Char) :
    (identToken c cs).2 <:+ cs := by
  unfold identToken
  split
  · rename_i d ds heq
    split
    · exact (List.suffix_cons _ _).trans (heq ▸ List.dropWhile_suffix _)
    · exact heq ▸ List.dropWhile_suffix _
  · exact List.nil_suffix

def stringToken_suffix (c : Char) (cs : List Char) (t : RawToken)
    (rest : List Char) (h : stringToken c cs = some (t, rest)) :
    rest <:+ cs := by
  unfold stringToken at h
  split at h
  · rename_i d rest2 heq
    cases h
    exact (List.suffix_cons _ _).trans (heq ▸ List.dropWhile_suffix _)
  · cases h

def numericToken_suffix (c : Char) (cs : List Char) :
    (numericToken c cs).2 <:+ cs := by
  unfold numericToken
  split
  · rename_i ds2 heq
    split
    · exact List.dropWhile_suffix _
    · exact (List.dropWhile_suffix _).trans
        ((List.suffix_cons _ _).trans (heq ▸ List.dropWhile_suffix _))
  · exact List.dropWhile_suffix _

def negToken_suffix (c : Char) (cs : List Char) : (negToken c cs).2 <:+ cs := by
  unfold negToken
  split
  · rename_i ds2
    split
    · exact List.suffix_refl _
    · exact (List.dropWhile_suffix _).trans (List.suffix_cons _ _)
  · split
    · exact numericToken_suffix _ _
    · exact List.suffix_refl _
  · exact List.suffix_refl _

def dotToken_suffix (c : Char) (cs : List Char) (t : RawToken)
    (rest : List Char) (h : dotToken c cs = some (t, rest)) : rest <:+ cs := by
  unfold dotToken at h
  split at h
  · cases h
  · cases h
    exact List.dropWhile_suffix _

def ltToken_suffix (c : Char) (cs : List Char) : (ltToken c cs).2 <:+ cs := by
  unfold ltToken
  split
  · exact List.suffix_cons _ _
  · exact List.suffix_cons _ _
  · exact List.suffix_refl _

def gtToken_suffix (c : Char) (cs : List Char) : (gtToken c cs).2 <:+ cs := by
  unfold gtToken
  split
  · exact List.suffix_cons _ _
  · exact List.suffix_refl _

/-- Every raw token consumes at least one character. -/
def rawNext_consumes (cs : List Char) (t : RawToken) (rest : List Char)
    (h : rawNext cs = some (t, rest)) : rest.length < cs.length := by
  cases cs with
  | nil => exact Option.noConfusion h
  | cons c cs =>
    have hsuf : rest <:+ cs := by
      replace h : rawNext1 c cs = some (t, rest) := h
      unfold rawNext1 at h
      generalize isJsSpace c = b1 at h
      generalize (c == '\'') = b2 at h
      generalize isIdentStart c = b3 at h
      generalize (c == '"') = b4 at h
      generalize c.isDigit = b5 at h
      generalize (c == '-') = b6 at h
      generalize (c == '.') = b7 at h
      generalize (c == ':') = b8 at h
      generalize (c == ';') = b9 at h
      generalize (c == ',') = b10 at h
      generalize (c == '(') = b11 at h
      generalize (c == ')') = b12 at h
      generalize (c == '+') = b13 at h
      generalize (c == '*') = b14 at h
      generalize (c == '^') = b15 at h
      generalize (c == '/') = b16 at h
      generalize (c == '\\') = b17 at h
      generalize (c == '=') = b18 at h
      generalize (c == '<') = b19 at h
      generalize (c == '>') = b20 at h
      cases b1 with
      | true =>
        rw [if_pos rfl] at h
        obtain rfl : (wsToken c cs).2 = rest := congrArg Prod.snd (Option.some.inj h)
        exact wsToken_suffix c cs
      | false =>
        rw [if_neg Bool.false_ne_true] at h
        cases b2 with
        | true =>
          rw [if_pos rfl] at h
          obtain rfl : (commentToken c cs).2 = rest := congrArg Prod.snd (Option.some.inj h)
          exact commentToken_suffix c cs
        | false =>
          rw [if_neg Bool.false_ne_true] at h
          cases b3 with
          | true =>
            rw [if_pos rfl] at h
            obtain rfl : (identToken c cs).2 = rest := congrArg Prod.snd (Option.some.inj h)
            exact identToken_suffix c cs
          | false =>
            rw [if_neg Bool.false_ne_true] at h
            cases b4 with
            | true =>
              rw [if_pos rfl] at h
              exact stringToken_suffix c cs t rest h
            | false =>
              rw [if_neg Bool.false_ne_true] at h
              cases b5 with
              | true =>
                rw [if_pos rfl] at h
                obtain rfl : (numericToken c cs).2 = rest := congrArg Prod.snd (Option.some.inj h)
                exact numericToken_suffix c cs
              | false =>
                rw [if_neg Bool.false_ne_true] at h
                cases b6 with
                | true =>
                  rw [if_pos rfl] at h
                  obtain rfl : (negToken c cs).2 = rest := congrArg Prod.snd (Option.some.inj h)
                  exact negToken_suffix c cs
                | false =>
                  rw [if_neg Bool.false_ne_true] at h
                  cases b7 with
                  | true =>
                    rw [if_pos rfl] at h
                    exact dotToken_suffix c cs t rest h
                  | false =>
                    rw [if_neg Bool.false_ne_true] at h
                    cases b8 with
                    | true =>
                      rw [if_pos rfl] at h
                      obtain rfl : cs = rest := congrArg Prod.snd (Option.some.inj h)
                      exact List.suffix_refl _
                    | false =>
                      rw [if_neg Bool.false_ne_true] at h
                      cases b9 with
                      | true =>
                        rw [if_pos rfl] at h
                        obtain rfl : cs = rest := congrArg Prod.snd (Option.some.inj h)
                        exact List.suffix_refl _
                      | false =>
                        rw [if_neg Bool.false_ne_true] at h
                        cases b10 with
                        | true =>
                          rw [if_pos rfl] at h
                          obtain rfl : cs = rest := congrArg Prod.snd (Option.some.inj h)
                          exact List.suffix_refl _
                        | false =>
                          rw [if_neg Bool.false_ne_true] at h
                          cases b11 with
                          | true =>
                            rw [if_pos rfl] at h
                            obtain rfl : cs = rest := congrArg Prod.snd (Option.some.inj h)
                            exact List.suffix_refl _
                          | false =>
                            rw [if_neg Bool.false_ne_true] at h
                            cases b12 with
                            | true =>
                              rw [if_pos rfl] at h
                              obtain rfl : cs = rest := congrArg Prod.snd (Option.some.inj h)
                              exact List.suffix_refl _
                            | false =>
                              rw [if_neg Bool.false_ne_true] at h
                              cases b13 with
                              | true =>
                                rw [if_pos rfl] at h
                                obtain rfl : cs = rest := congrArg Prod.snd (Option.some.inj h)
                                exact List.suffix_refl _
                              | false =>
                                rw [if_neg Bool.false_ne_true] at h
                                cases b14 with
                                | true =>
                                  rw [if_pos rfl] at h
                                  obtain rfl : cs = rest := congrArg Prod.snd (Option.some.inj h)
                                  exact List.suffix_refl _
                                | false =>
                                  rw [if_neg Bool.false_ne_true] at h
                                  cases b15 with
                                  | true =>
                                    rw [if_pos rfl] at h
                                    obtain rfl : cs = rest := congrArg Prod.snd (Option.some.inj h)
                                    exact List.suffix_refl _
                                  | false =>
                                    rw [if_neg Bool.false_ne_true] at h
                                    cases b16 with
                                    | true =>
                                      rw [if_pos rfl] at h
                                      obtain rfl : cs = rest := congrArg Prod.snd (Option.some.inj h)
                                      exact List.suffix_refl _
                                    | false =>
                                      rw [if_neg Bool.false_ne_true] at h
                                      cases b17 with
                                      | true =>
                                        rw [if_pos rfl] at h
                                        obtain rfl : cs = rest := congrArg Prod.snd (Option.some.inj h)
                                        exact List.suffix_refl _
                                      | false =>
                                        rw [if_neg Bool.false_ne_true] at h
                                        cases b18 with
                                        | true =>
                                          rw [if_pos rfl] at h
                                          obtain rfl : cs = rest := congrArg Prod.snd (Option.some.inj h)
                                          exact List.suffix_refl _
                                        | false =>
                                          rw [if_neg Bool.false_ne_true] at h
                                          cases b19 with
                                          | true =>
                                            rw [if_pos rfl] at h
                                            obtain rfl : (ltToken c cs).2 = rest := congrArg Prod.snd (Option.some.inj h)
                                            exact ltToken_suffix c cs
                                          | false =>
                                            rw [if_neg Bool.false_ne_true] at h
                                            cases b20 with
                                            | true =>
                                              rw [if_pos rfl] at h
                                              obtain rfl : (gtToken c cs).2 = rest := congrArg Prod.snd (Option.some.inj h)
                                              exact gtToken_suffix c cs
                                            | false =>
                                              rw [if_neg Bool.false_ne_true] at h
                                              exact Option.noConfusion h
    have := hsuf.length_le
    simp only [List.length_cons]
    omega

/-- `TOKEN_TYPES_TO_DISCARD`. -/
def TOKEN_TYPES_TO_DISCARD : List String := ["WHITESPACE", "COMMENT"]

/-- The overridden `lexer.next`: fetch raw tokens, discarding those with
a truthy type listed in `TOKEN_TYPES_TO_DISCARD`. -/
def lexerNext (cs : List Char) : Option (RawToken × List Char) :=
  match _hr : rawNext cs with
  | none => none
  | some (t, rest) =>
    if !(t.ttype == "") && TOKEN_TYPES_TO_DISCARD.contains t.ttype then
      lexerNext rest
    else
      some (t, rest)
termination_by cs.length
decreasing_by
  exact rawNext_consumes cs t rest _hr

/-! ## Runtime INPUT (`Runtime.input` in `runtime/runtime.ts`) -/

/-- A token of the input lexer (after lexInput filtered WHITESPACE):
a STRING token (quoted or bare, quotes stripped) or a COMMA. -/
inductive InputToken where
  | stringTok (value : String)
  | commaTok
deriving DecidableEq, Repr

def InputToken.isStringTok : InputToken → Bool
  | .stringTok _ => true
  | .commaTok => false

/-- The input lexer loop, rules in source order: WHITESPACE (skipped by
`lexInput`), QUOTED_STRING (`"[^"]*"`, re-typed STRING with quotes
stripped; with no closing quote the bare STRING rule `[^,\s]+` matches
instead), COMMA, STRING.  Fuel-driven; the fuel strictly exceeds the
iteration count since every iteration consumes at least one character.
Note `line.trim()` in the source only strips whitespace this loop
discards anyway. -/
def inputLexGo : Nat → List Char → List InputToken
  | 0, _ => []
  | _ + 1, [] => []
  | fuel + 1, c :: cs =>
    if isJsSpace c then inputLexGo fuel (cs.dropWhile isJsSpace)
    else if c == '"' then
      match cs.dropWhile (fun d => !(d == '"')) with
      | _ :: rest2 =>
        .stringTok (cs.takeWhile (fun d => !(d == '"'))).asString ::
          inputLexGo fuel rest2
      | [] =>
        .stringTok
            (c :: cs.takeWhile (fun d => !(isJsSpace d) && !(d == ','))).asString ::
          inputLexGo fuel (cs.dropWhile (fun d => !(isJsSpace d) && !(d == ',')))
    else if c == ',' then .commaTok :: inputLexGo fuel cs
    else
      .stringTok
          (c :: cs.takeWhile (fun d => !(isJsSpace d) && !(d == ','))).asString ::
        inputLexGo fuel (cs.dropWhile (fun d => !(isJsSpace d) && !(d == ',')))

/-- `Runtime.lexInput`: tokenize one line, whitespace dropped. -/
def lexInput (line : String) : List InputToken :=
  inputLexGo (line.length + 1) line.data

/-- A JavaScript number as produced by `parseFloat` on a decimal field,
represented exactly as mantissa × 10 ^ exponent (the claims never use
floating-point rounding, only parse success and returned structure). -/
structure JsNumber where
  mantissa : Int
  exponent : Int
deriving DecidableEq, Repr

def digitsToNat (ds : List Char) : Nat :=
  ds.foldl (fun a c => a * 10 + (c.toNat - '0'.toNat)) 0

/-- JS `parseFloat`: skip leading whitespace, optional sign, integer
digits with optional fraction (at least one digit in total required),
optional exponent; `none` models NaN (no numeric prefix). -/
def parseFloatJs (s : String) : Option JsNumber :=
  let cs0 := s.data.dropWhile isJsSpace
  let sign : Int := if cs0.head? = some '-' then -1 else 1
  let cs1 := if cs0.head? = some '-' || cs0.head? = some '+' then cs0.tail else cs0
  let ip := cs1.takeWhile Char.isDigit
  let cs2 := cs1.dropWhile Char.isDigit
  let fp := match cs2 with
    | '.' :: r => r.takeWhile Char.isDigit
    | _ => []
  let cs3 := match cs2 with
    | '.' :: r => r.dropWhile Char.isDigit
    | _ => cs2
  if ip.isEmpty && fp.isEmpty then none
  else
    let mant : Int := sign * ((digitsToNat ip) * 10 ^ fp.length + digitsToNat fp)
    let exp0 : Int := -(fp.length : Int)
    match cs3 with
    | e :: r =>
      if e == 'e' || e == 'E' then
        let esign : Int := if r.head? = some '-' then -1 else 1
        let r1 := if r.head? = some '-' || r.head? = some '+' then r.tail else r
        let ed := r1.takeWhile Char.isDigit
        if ed.isEmpty then some ⟨mant, exp0⟩
        else some ⟨mant, exp0 + esign * (digitsToNat ed : Int)⟩
      else some ⟨mant, exp0⟩
    | [] => some ⟨mant, exp0⟩

/-- A value pushed onto `results` by `Runtime.input`. -/
inductive InputValue where
  | strV (s : String)
  | numV (n : JsNumber)
deriving DecidableEq, Repr

/-- Outcome of one pass over the requested types: all values parsed, a
recoverable parse error (printing Redo from start), or the `throw new
Error` for a non-elementary requested type, which escapes the loop. -/
inductive InputOutcome where
  | ok (vals : List InputValue)
  | redo (msg : String)
  | fatal (msg : String)
deriving DecidableEq, Repr

/-- Push a parsed value onto the results of the remaining loop
iterations; errors propagate. -/
def consOk (v : InputValue) : InputOutcome → InputOutcome
  | .ok vs => .ok (v :: vs)
  | e => e

/-- Consume the separating comma before result 1+ (`Comma expected`
when missing). -/
def consumeComma (isFirst : Bool) (tokens : List InputToken) :
    Option (List InputToken) :=
  if isFirst then some tokens
  else match tokens with
    | .commaTok :: ts => some ts
    | _ => none

/-- The `for (resultIdx …)` loop of `Runtime.input`: per requested type,
consume a comma (except first), then a STRING token; a string type takes
the token as-is, a numeric type parseFloat-s it (NaN → error), any other
type is the thrown Error. -/
def parseVals (resultTypes : List DataTypeSpec) (tokens : List InputToken)
    (isFirst : Bool) : InputOutcome :=
  match resultTypes with
  | [] => .ok []
  | resultType :: rts =>
    match consumeComma isFirst tokens with
    | none => .redo "Comma expected"
    | some ts =>
      match ts with
      | .stringTok v :: ts2 =>
        if resultType.isStringB then
          consOk (.strV v) (parseVals rts ts2 false)
        else if resultType.isNumericB then
          match parseFloatJs v with
          | some n => consOk (.numV n) (parseVals rts ts2 false)
          | none => .redo "Invalid numeric value"
        else .fatal "Unexpected result type"
      | _ => .redo "No value provided"

/-- One iteration of the retry loop: lex the entered line and parse one
value per requested type. -/
def inputOnce (line : String) (resultTypes : List DataTypeSpec) :
    InputOutcome :=
  parseVals resultTypes (lexInput line) true

/-- Result of `Runtime.input` over a finite stream of user lines. -/
inductive InputResult where
  | returned (vals : List InputValue)
  | outOfInput
  | crashed (msg : String)
deriving DecidableEq, Repr

/-- `Runtime.input` over a stream of entered lines: on success return
the results; on a parse error print `Redo from start` (counted) and
re-read the next line; an exhausted stream models waiting for input
forever, and `fatal` the escaped exception. -/
def input (lines : List String) (resultTypes : List DataTypeSpec) :
    Nat × InputResult :=
  match lines with
  | [] => (0, .outOfInput)
  | l :: ls =>
    match inputOnce l resultTypes with
    | .ok vals => (0, .returned vals)
    | .redo _ =>
      ((input ls resultTypes).1 + 1, (input ls resultTypes).2)
    | .fatal msg => (0, .crashed msg)

end Qbjc

namespace Qbjc

/-- Claim C1: for every pair of numeric elementary types, pairwise
numeric coercion returns the wider of the two by the ordering
Integer < Long < Single < Double (so Integer/Single and Long/Single give
Single, and anything mixed with Double gives Double). -/
theorem coerce2_eq_wider (a b : DataTypeSpec)
    (ha : a.isNumericB = true) (hb : b.isNumericB = true) :
    coerce2 a b = .ok (widerNumericType a b) := by
  cases a <;> cases b <;>
    first
      | rfl
      | simp [DataTypeSpec.isNumericB] at ha hb

/-- Witness for C1: coercing Long with Single yields Single. -/
theorem coerce2_eq_wider_witness :
    coerce2 .long .single = .ok (widerNumericType .long .single) :=
  coerce2_eq_wider .long .single (by decide) (by decide)

/-- Claim C8: pairwise numeric coercion is associative over the four
numeric types, so a left-to-right fold over a list of numeric types is
independent of grouping. -/
theorem coerce2_assoc (a b c : DataTypeSpec)
    (_ha : a.isNumericB = true) (_hb : b.isNumericB = true)
    (_hc : c.isNumericB = true) :
    (coerce2 a b).bind (fun ab => coerce2 ab c) =
      (coerce2 b c).bind (fun bc => coerce2 a bc) := by
  cases a <;> cases b <;> cases c <;> rfl

/-- Witness for C8: grouping does not matter for Integer, Single, Long. -/
theorem coerce2_assoc_witness :
    (coerce2 .integer .single).bind (fun ab => coerce2 ab .long) =
      (coerce2 .single .long).bind (fun bc => coerce2 .integer bc) :=
  coerce2_assoc .integer .single .long (by decide) (by decide) (by decide)

/-- The source's padding count `14 - line.length % 14` equals the
distance from the line length to the next multiple of 14. -/
theorem padding_eq_next_zone (len : Nat) :
    14 - len % 14 = (len / 14 + 1) * 14 - len := by
  have h := Nat.mod_add_div len 14
  have h2 : len % 14 < 14 := Nat.mod_lt len (by norm_num)
  omega

theorem printStep_eq_specPrintStep (line : String) (arg : PrintArg) :
    Runtime.printStep line arg = Runtime.specPrintStep line arg := by
  cases arg with
  | semicolon => rfl
  | comma =>
    simp only [Runtime.printStep, Runtime.specPrintStep, Runtime.PRINT_ZONE_LENGTH,
      padding_eq_next_zone]
  | value v => cases v <;> rfl

/-- Claim C2: `Runtime.print` renders its argument list exactly per the
spec rules: numbers with a leading space when non-negative and a
trailing space, strings as-is, commas padding to the next 14-column
print zone, semicolons contributing nothing, and a newline appended iff
the argument list is empty or ends in a Value arg. -/
theorem print_eq_specPrint (args : List PrintArg) :
    Runtime.print args = Runtime.specPrint args := by
  unfold Runtime.print Runtime.specPrint
  rw [List.foldl_ext Runtime.printStep Runtime.specPrintStep ""
    (fun a b _ => printStep_eq_specPrintStep a b)]

/-- Claim C9: in `Runtime.print`, a Comma arg appends exactly
`14 - line.length % 14` spaces; this count is at least 1 and at most 14,
and is a full 14 when the line length is an exact multiple of 14. -/
theorem print_comma_padding (line : String) :
    Runtime.printStep line .comma =
      line ++ String.mk (List.replicate (14 - line.length % 14) ' ') ∧
    1 ≤ 14 - line.length % 14 ∧ 14 - line.length % 14 ≤ 14 ∧
    (line.length % 14 = 0 → 14 - line.length % 14 = 14) := by
  have h2 : line.length % 14 < 14 := Nat.mod_lt line.length (by norm_num)
  exact ⟨rfl, by omega, by omega, by omega⟩

/-- Witness for C9: on an empty line a Comma arg pads a full 14 spaces. -/
theorem print_comma_padding_witness :
    ("" : String).length % 14 = 0 ∧ 14 - ("" : String).length % 14 = 14 :=
  ⟨by decide, (print_comma_padding "").2.2.2 (by decide)⟩

/-- Claim C10: with `shouldReturnIfArgTypeMismatch` set, whenever at
least one built-in matches the name case-insensitively,
`lookupBuiltinFn` never returns null; and when no overload matches the
argument count and types, it returns the first built-in with that name
regardless of the caller's argument count. -/
theorem lookupBuiltinFn_fallback (name : String)
    (argTypeSpecs : List DataTypeSpec)
    (h : lookupSymbols BUILTIN_FNS name ≠ []) :
    (lookupBuiltinFn name argTypeSpecs true).isSome = true ∧
    ((lookupSymbols BUILTIN_FNS name).find? (overloadMatches argTypeSpecs)
        = none →
      lookupBuiltinFn name argTypeSpecs true
        = (lookupSymbols BUILTIN_FNS name).head?) := by
  unfold lookupBuiltinFn
  cases hf : (lookupSymbols BUILTIN_FNS name).find? (overloadMatches argTypeSpecs) with
  | some fn =>
    exact ⟨rfl, fun hnone => Option.noConfusion hnone⟩
  | none =>
    have hlen : 0 < (lookupSymbols BUILTIN_FNS name).length :=
      List.length_pos.mpr h
    have hcond : (true && decide ((lookupSymbols BUILTIN_FNS name).length > 0))
        = true := by
      simp [hlen]
    refine ⟨?_, fun _ => ?_⟩
    · rw [if_pos hcond]
      cases hl : lookupSymbols BUILTIN_FNS name with
      | nil => exact absurd hl h
      | cons a l => rfl
    · rw [if_pos hcond]

/-- Witness for C10: calling CHR$ with no arguments (arity mismatch)
still returns the sole chr$ entry with the flag set. -/
theorem lookupBuiltinFn_fallback_witness :
    (lookupBuiltinFn "CHR$" [] true).isSome = true ∧
    ((lookupSymbols BUILTIN_FNS "CHR$").find? (overloadMatches []) = none →
      lookupBuiltinFn "CHR$" [] true
        = (lookupSymbols BUILTIN_FNS "CHR$").head?) :=
  lookupBuiltinFn_fallback "CHR$" [] (by decide)

/-- Counterexample to Claim C3: inside proc `f`, the module local `x`
is not found by the analyzer (a fresh proc-local is declared instead),
whereas the claimed four-step lookup order would resolve it. -/
theorem visitVarRef_module_local_counterexample :
    visitVarRefExpr stInsideF "x" = .declaredLocal ⟨"x", .var, .single⟩ ∧
    claimVisitVarRef stInsideF "x"
      = .resolved ⟨"x", .var, .single⟩ .localScope ∧
    visitVarRefExpr stInsideF "x" ≠ claimVisitVarRef stInsideF "x" := by
  decide

theorem popFrames_eq (k : Nat) (st : List Codegen.ForFrame) (h : k ≤ st.length) :
    Codegen.popFrames k st =
      ((st.take k).flatMap Codegen.closeChunks, st.drop k) := by
  induction k generalizing st with
  | zero => simp [Codegen.popFrames]
  | succ n ih =>
    cases st with
    | nil => simp at h
    | cons f rest =>
      have h2 : n ≤ rest.length := by
        simpa using Nat.le_of_succ_le_succ h
      simp [Codegen.popFrames, ih rest h2]

/-- Claim C5: a NEXT naming k counters (1 for a bare NEXT) closes the k
innermost open FOR frames, innermost first, emitting for each the
counter increment with goto loopStart, the loopEnd label and the release
of the step and end temps; a counter text mismatch, and a FOR still open
when the statement list is exhausted, raise a CodegenError.  The stack
head is the innermost frame. -/
theorem visitNextStmt_spec :
    (∀ (counters : List String) (stack : List Codegen.ForFrame),
        counters ≠ [] → counters.length ≤ stack.length →
        ((counters.zip stack).all fun p => p.1 == p.2.counterText) = true →
        Codegen.visitNextStmt counters stack =
          .ok ((stack.take counters.length).flatMap Codegen.closeChunks,
               stack.drop counters.length)) ∧
    (∀ stack : List Codegen.ForFrame, stack ≠ [] →
        Codegen.visitNextStmt [] stack =
          .ok ((stack.take 1).flatMap Codegen.closeChunks, stack.drop 1)) ∧
    (∀ (counters : List String) (stack : List Codegen.ForFrame),
        counters.length ≤ stack.length →
        ((counters.zip stack).all fun p => p.1 == p.2.counterText) = false →
        Codegen.visitNextStmt counters stack =
          .error "Counter does not match corresponding FOR statement") ∧
    (∀ (f : Codegen.ForFrame) (stack : List Codegen.ForFrame),
        Codegen.visitStmts [.forG f] stack =
          .error "FOR statement without corresponding NEXT statement") := by
  refine ⟨?_, ?_, ?_, ?_⟩
  · intro counters stack hne hlen hall
    have hk : Codegen.numForStmtStatesToClose counters = counters.length := by
      cases counters with
      | nil => exact absurd rfl hne
      | cons c cs => simp [Codegen.numForStmtStatesToClose]
    unfold Codegen.visitNextStmt
    rw [hk, if_neg (by omega), if_pos hall, popFrames_eq _ _ hlen]
  · intro stack hne
    have hlen : 1 ≤ stack.length := by
      cases stack with
      | nil => exact absurd rfl hne
      | cons f rest => simp
    unfold Codegen.visitNextStmt
    rw [show Codegen.numForStmtStatesToClose [] = 1 from rfl,
      if_neg (by omega), if_pos (by simp), popFrames_eq _ _ hlen]
  · intro counters stack hlen hall
    have hne : counters ≠ [] := by
      intro hc
      rw [hc] at hall
      simp at hall
    have hk : Codegen.numForStmtStatesToClose counters = counters.length := by
      cases counters with
      | nil => exact absurd rfl hne
      | cons c cs => simp [Codegen.numForStmtStatesToClose]
    unfold Codegen.visitNextStmt
    rw [hk, if_neg (by omega), if_neg (by simp [hall])]
  · intro f stack
    have h2 : stack.length < (f :: stack).length := by simp
    rw [show Codegen.visitStmts [.forG f] stack =
        if stack.length < (f :: stack).length then
          .error "FOR statement without corresponding NEXT statement"
        else .ok ([.forInit f], f :: stack) from rfl,
      if_pos h2]

/-- Witness for C5: NEXT i with one matching open FOR frame closes it. -/
theorem visitNextStmt_spec_witness :
    Codegen.visitNextStmt ["i"]
        [⟨"i", "$1_loopStart", "$1_loopEnd", "s1", "e1"⟩] =
      .ok ((([⟨"i", "$1_loopStart", "$1_loopEnd", "s1", "e1"⟩] :
              List Codegen.ForFrame).take 1).flatMap Codegen.closeChunks,
           ([⟨"i", "$1_loopStart", "$1_loopEnd", "s1", "e1"⟩] :
              List Codegen.ForFrame).drop 1) :=
  visitNextStmt_spec.1 ["i"] [⟨"i", "$1_loopStart", "$1_loopEnd", "s1", "e1"⟩]
    (by decide) (by decide) (by decide)

/-- Claim C7 (code evaluation at the failing input): the unary operator
map has no entry for PARENS, so the chunk list emitted for a
parenthesised expression contains an undefined chunk and cannot be
assembled, while NEG and NOT assemble fine.  Code generation therefore
does not emit the inner expression wrapped in parentheses. -/
theorem visitUnaryOpExpr_parens_undefined (rightCode : String) :
    unaryOpMap .parens = none ∧
    assembleChunks (visitUnaryOpExpr .parens rightCode) = none ∧
    (assembleChunks (visitUnaryOpExpr .neg rightCode)).isSome = true ∧
    (assembleChunks (visitUnaryOpExpr .not rightCode)).isSome = true :=
  ⟨rfl, rfl, rfl, rfl⟩

theorem takeWhile_all_append {p : Char → Bool} (l r : List Char)
    (hl : ∀ c ∈ l, p c = true) (hr : ∀ c, r.head? = some c → p c = false) :
    (l ++ r).takeWhile p = l ∧ (l ++ r).dropWhile p = r := by
  induction l with
  | nil =>
    cases r with
    | nil => simp
    | cons a as =>
      have ha := hr a rfl
      simp [List.takeWhile_cons, List.dropWhile_cons, ha]
  | cons a as ih =>
    have hpa := hl a (by simp)
    have ih2 := ih (fun c hc => hl c (by simp [hc]))
    simp [List.takeWhile_cons, List.dropWhile_cons, hpa, ih2.1, ih2.2]

/-- The moo type-plus-fallback of a whitespace run: NEWLINE when the run
has a newline, else the rule name WHITESPACE. -/
theorem wsTokenType_eq (run : List Char) :
    wsTokenType run =
      if run.contains '\n' then "NEWLINE" else "WHITESPACE" := by
  unfold wsTokenType
  cases h : run.contains '\n' <;> rfl

/-- Claim C6: a maximal whitespace run yields exactly one raw token
covering the run; the token stream keeps it as a NEWLINE token when the
run contains a newline character, and discards it entirely (continuing
at the rest of the input) when it does not. -/
theorem lexer_whitespace_run (ws rest : List Char) (hne : ws ≠ [])
    (hall : ∀ c ∈ ws, isJsSpace c = true)
    (hbd : ∀ c, rest.head? = some c → isJsSpace c = false) :
    rawNext (ws ++ rest) =
      some (⟨if ws.contains '\n' then "NEWLINE" else "WHITESPACE", ws⟩, rest) ∧
    lexerNext (ws ++ rest) =
      (if ws.contains '\n' then some (⟨"NEWLINE", ws⟩, rest)
       else lexerNext rest) := by
  cases ws with
  | nil => exact absurd rfl hne
  | cons w ws =>
    have hw : isJsSpace w = true := hall w (by simp)
    have htd := takeWhile_all_append ws rest
      (fun c hc => hall c (by simp [hc])) hbd
    have hraw : rawNext ((w :: ws) ++ rest) =
        some (⟨if (w :: ws).contains '\n' then "NEWLINE" else "WHITESPACE",
               w :: ws⟩, rest) := by
      have : rawNext ((w :: ws) ++ rest) = rawNext1 w (ws ++ rest) := rfl
      rw [this]
      unfold rawNext1
      rw [if_pos hw]
      unfold wsToken
      rw [htd.1, htd.2, wsTokenType_eq]
    refine ⟨hraw, ?_⟩
    cases hc : (w :: ws).contains '\n' with
    | true =>
      rw [lexerNext, hraw, hc]
      rfl
    | false =>
      rw [lexerNext, hraw, hc]
      rfl

/-- Witness for C6: the run " \n" yields a NEWLINE token before `a`,
and the run " " (no newline) yields no token at all. -/
theorem lexer_whitespace_run_witness :
    (rawNext ([' ', '\n'] ++ ['a']) =
      some (⟨if [' ', '\n'].contains '\n' then "NEWLINE" else "WHITESPACE",
             [' ', '\n']⟩, ['a']) ∧
     lexerNext ([' ', '\n'] ++ ['a']) =
      (if [' ', '\n'].contains '\n' then some (⟨"NEWLINE", [' ', '\n']⟩, ['a'])
       else lexerNext ['a'])) ∧
    (rawNext ([' '] ++ ['a']) =
      some (⟨if [' '].contains '\n' then "NEWLINE" else "WHITESPACE",
             [' ']⟩, ['a']) ∧
     lexerNext ([' '] ++ ['a']) =
      (if [' '].contains '\n' then some (⟨"NEWLINE", [' ']⟩, ['a'])
       else lexerNext ['a'])) :=
  ⟨lexer_whitespace_run [' ', '\n'] ['a'] (by decide)
      (by decide) (by decide),
   lexer_whitespace_run [' '] ['a'] (by decide)
      (by decide) (by decide)⟩

theorem consOk_ok (v : InputValue) (r : InputOutcome) (vals : List InputValue)
    (h : consOk v r = .ok vals) : ∃ vs, r = .ok vs ∧ vals = v :: vs := by
  cases r with
  | ok vs =>
    refine ⟨vs, rfl, ?_⟩
    have := InputOutcome.ok.inj h
    exact this.symm
  | redo m => exact absurd h (by simp [consOk])
  | fatal m => exact absurd h (by simp [consOk])

theorem parseVals_ok_length (rts : List DataTypeSpec) :
    ∀ (tokens : List InputToken) (first : Bool) (vals : List InputValue),
      parseVals rts tokens first = .ok vals → vals.length = rts.length := by
  induction rts with
  | nil =>
    intro tokens first vals h
    simp only [parseVals] at h
    rw [← InputOutcome.ok.inj h]
    rfl
  | cons rt rts ih =>
    intro tokens first vals h
    simp only [parseVals] at h
    split at h
    · exact InputOutcome.noConfusion h
    · split at h
      · split_ifs at h with hs hn
        · obtain ⟨vs, hr, rfl⟩ := consOk_ok _ _ _ h
          simp [ih _ false vs hr]
        · split at h
          · obtain ⟨vs, hr, rfl⟩ := consOk_ok _ _ _ h
            simp [ih _ false vs hr]
          · exact InputOutcome.noConfusion h
      · exact InputOutcome.noConfusion h

theorem consOk_fatal (v : InputValue) (r : InputOutcome) (m : String)
    (h : consOk v r = .fatal m) : r = .fatal m := by
  cases r with
  | ok vs => exact InputOutcome.noConfusion h
  | redo mm => exact InputOutcome.noConfusion h
  | fatal mm => exact h

theorem parseVals_not_fatal (rts : List DataTypeSpec) :
    ∀ (tokens : List InputToken) (first : Bool) (msg : String),
      rts.all DataTypeSpec.isElementaryB = true →
      parseVals rts tokens first ≠ .fatal msg := by
  induction rts with
  | nil =>
    intro tokens first msg _ h
    exact InputOutcome.noConfusion h
  | cons rt rts ih =>
    intro tokens first msg hall h
    rw [List.all_cons, Bool.and_eq_true] at hall
    simp only [parseVals] at h
    split at h
    · exact InputOutcome.noConfusion h
    · split at h
      · split_ifs at h with hs hn
        · exact absurd (consOk_fatal _ _ _ h) (ih _ false msg hall.2)
        · split at h
          · exact absurd (consOk_fatal _ _ _ h) (ih _ false msg hall.2)
          · exact InputOutcome.noConfusion h
        · cases rt <;> simp_all [DataTypeSpec.isStringB, DataTypeSpec.isNumericB,
            DataTypeSpec.isElementaryB]
      · exact InputOutcome.noConfusion h

theorem input_returned_length (lines : List String)
    (rts : List DataTypeSpec) :
    ∀ vals, (input lines rts).2 = .returned vals → vals.length = rts.length := by
  induction lines with
  | nil =>
    intro vals h
    exact InputResult.noConfusion h
  | cons l ls ih =>
    intro vals h
    simp only [input] at h
    cases ho : inputOnce l rts with
    | ok vs =>
      rw [ho] at h
      have hv : vs = vals := InputResult.returned.inj h
      exact hv ▸ parseVals_ok_length rts (lexInput l) true vs ho
    | redo m =>
      rw [ho] at h
      exact ih vals h
    | fatal m =>
      rw [ho] at h
      exact InputResult.noConfusion h

/-- Counterexample to Claim C4: with one requested numeric value and
the entered line `1,2` (two fields for one requested type), the runtime
does not print Redo from start; it returns the first value and ignores
the extra field. -/
theorem input_extra_fields_counterexample :
    lexInput "1,2" = [.stringTok "1", .commaTok, .stringTok "2"] ∧
    ((lexInput "1,2").filter InputToken.isStringTok).length = 2 ∧
    ([DataTypeSpec.double] : List DataTypeSpec).length = 1 ∧
    input ["1,2"] [DataTypeSpec.double] =
      (0, .returned [.numV ⟨1, 0⟩]) := by
  refine ⟨by decide, by decide, by decide, by decide⟩

/-- Claim C4 (amended): whenever the entered line supplies too few
well-typed values (a failed numeric parse, a missing field or a missing
separating comma), the runtime prints Redo from start and re-reads the
next line; extra fields beyond the requested count are ignored; and a
returned result list always has exactly one value per requested type.
For elementary requested types the per-line pass never escapes the
retry loop. -/
theorem input_redo_spec :
    (∀ (lines : List String) (resultTypes : List DataTypeSpec)
        (n : Nat) (vals : List InputValue),
        input lines resultTypes = (n, .returned vals) →
        vals.length = resultTypes.length) ∧
    (∀ (l : String) (ls : List String) (resultTypes : List DataTypeSpec)
        (msg : String),
        inputOnce l resultTypes = .redo msg →
        input (l :: ls) resultTypes =
          ((input ls resultTypes).1 + 1, (input ls resultTypes).2)) ∧
    (∀ (l : String) (resultTypes : List DataTypeSpec),
        resultTypes.all DataTypeSpec.isElementaryB = true →
        ∀ msg, inputOnce l resultTypes ≠ .fatal msg) := by
  refine ⟨?_, ?_, ?_⟩
  · intro lines resultTypes n vals h
    exact input_returned_length lines resultTypes vals
      (by rw [h])
  · intro l ls resultTypes msg h
    simp only [input]
    rw [h]
  · intro l resultTypes hall msg
    exact parseVals_not_fatal resultTypes (lexInput l) true msg hall

/-- Witness for C4 (amended): entering `x` (not numeric) then `5` for
one requested Double prints one Redo and returns one value. -/
theorem input_redo_spec_witness :
    ([InputValue.numV ⟨5, 0⟩] : List InputValue).length =
      ([DataTypeSpec.double] : List DataTypeSpec).length ∧
    input ["x", "5"] [DataTypeSpec.double] =
      ((input ["5"] [DataTypeSpec.double]).1 + 1,
       (input ["5"] [DataTypeSpec.double]).2) ∧
    inputOnce "hello" [DataTypeSpec.string] ≠ .fatal "Unexpected result type" :=
  ⟨input_redo_spec.1 ["5"] [DataTypeSpec.double] 0 [.numV ⟨5, 0⟩] (by decide),
   input_redo_spec.2.1 "x" ["5"] [DataTypeSpec.double]
     "Invalid numeric value" (by decide),
   input_redo_spec.2.2 "hello" [DataTypeSpec.string] (by decide)
     "Unexpected result type"⟩

/-- Claim C3 (amended): VarRef resolution looks up the current proc's
params, the current proc's locals, then the module globals when inside a
proc — module locals are visible only at module level, where lookup is
module locals then globals; on a complete miss the node is rewritten to
a nullary FnCall when the name names an FN proc, and otherwise a new
local is declared with the type given by the name's sigil suffix (Single
when there is none) and annotated with LOCAL scope. -/
theorem visitVarRef_eq_amended (st : AnalyzerState) (name : String) :
    visitVarRefExpr st name = amendedVisitVarRef st name := by
  have hl : analyzerLookupSymbol st name = amendedLookupSymbol st name := by
    cases hc : st.currentProc <;>
      simp [analyzerLookupSymbol, amendedLookupSymbol, getLocalSymbols,
        lookupChain, hc]
  unfold visitVarRefExpr amendedVisitVarRef
  rw [hl]

end Qbjc
